import Mathlib

/-!
Shallow embedding of the restaurant-directory Azure Functions app
(`RestaurantRecommend/__init__.py` and `RestaurantManagement/__init__.py`).

Times of day are zero-padded "HH:MM" strings compared lexicographically
(the `String` linear order).  The wall clock, which the Python code reads
via `datetime.now()`, is passed in explicitly as a `now` argument.
Python `KeyError`s raised by dictionary lookups are modelled with
`Except String`; a Python function that may raise returns an
`Except String _` value.
-/

/-- Lexicographic strict comparison of character lists, the order Python
uses for `str < str` (and that `String`'s linear order denotes).  Written
as a structurally recursive `Bool` function so concrete comparisons
evaluate by `decide`. -/
def charListLtB : List Char → List Char → Bool
  | [], [] => false
  | [], _ :: _ => true
  | _ :: _, [] => false
  | a :: as, b :: bs => if a < b then true else if b < a then false else charListLtB as bs

/-- Python `s1 < s2` on strings. -/
def strLtB (a b : String) : Bool := charListLtB a.data b.data

/-- Python `s1 <= s2` on strings (`¬ s2 < s1` in a linear order). -/
def strLeB (a b : String) : Bool := !charListLtB b.data a.data

/-- Python `s.lower()`, restricted to the ASCII case mapping. -/
def strLower (s : String) : String := ⟨s.data.map Char.toLower⟩

theorem charListLtB_iff (l₁ l₂ : List Char) :
    charListLtB l₁ l₂ = true ↔ List.Lex (· < ·) l₁ l₂ := by
  induction l₁ generalizing l₂ with
  | nil =>
    cases l₂ with
    | nil =>
      simp only [charListLtB]
      exact iff_of_false (by simp) (List.Lex.not_nil_right _ _)
    | cons b bs =>
      simp only [charListLtB]
      exact iff_of_true (by trivial) List.Lex.nil
  | cons a as ih =>
    cases l₂ with
    | nil =>
      simp only [charListLtB]
      exact iff_of_false (by simp) (List.Lex.not_nil_right _ _)
    | cons b bs =>
      simp only [charListLtB]
      by_cases hab : a < b
      · simp only [if_pos hab]
        exact iff_of_true (by trivial) (List.Lex.rel hab)
      · simp only [if_neg hab]
        by_cases hba : b < a
        · simp only [if_pos hba]
          constructor
          · intro h; cases h
          · intro h
            cases h with
            | cons _ => exact absurd hba (lt_irrefl _)
            | rel h => exact absurd h hab
        · simp only [if_neg hba]
          have heq : a = b := le_antisymm (not_lt.mp hba) (not_lt.mp hab)
          subst heq
          rw [ih bs]
          constructor
          · intro h; exact List.Lex.cons h
          · intro h
            cases h with
            | cons h => exact h
            | rel h => exact absurd h hab

theorem strLtB_iff (a b : String) : strLtB a b = true ↔ a < b := by
  rw [strLtB, charListLtB_iff, String.lt_iff_toList_lt]
  exact Iff.rfl

theorem strLeB_iff (a b : String) : strLeB a b = true ↔ a ≤ b := by
  rw [strLeB, Bool.not_eq_true', ← Bool.not_eq_true, charListLtB_iff]
  exact (by rw [String.le_iff_toList_le]; exact not_lt.symm :
    a ≤ b ↔ ¬ List.Lex (· < ·) b.data a.data).symm

/-- A restaurant record as consumed by the recommendation filters.
Fields the data model marks required are plain; the optional boolean
fields `vegetarian` and `deliveries` are `Option Bool`, with `none`
standing for an absent dictionary key (whose lookup raises `KeyError`). -/
structure Restaurant where
  name : String := ""
  style : String
  vegetarian : Option Bool := none
  deliveries : Option Bool := none
  priceRange : String
  openHour : String
  closeHour : String
deriving Repr, DecidableEq

/-- Query parameters read by `filter_restaurants`; `none` means the key
is absent from the query map. -/
structure QueryParams where
  style : Option String := none
  vegetarian : Option String := none
  deliveries : Option String := none
  priceRange : Option String := none
  openNow : Option String := none
deriving Repr, DecidableEq

/-- Embedding of `is_restaurant_open(open_hour, close_hour)`; the current
time `datetime.now().strftime("%H:%M")` is passed as `now`. -/
def isRestaurantOpen (openHour closeHour now : String) : Bool :=
  if strLtB closeHour openHour then
    strLeB openHour now || strLeB now closeHour
  else
    strLeB openHour now && strLeB now closeHour

/-- Embedding of the comprehension
`[r for r in filtered if r['vegetarian'] == veg_param]`: the lookup
`r['vegetarian']` raises `KeyError` on a record lacking the field,
at the first such record in list order. -/
def filterVeg (vegParam : Bool) : List Restaurant → Except String (List Restaurant)
  | [] => .ok []
  | r :: rs =>
    match r.vegetarian with
    | none => .error "KeyError: vegetarian"
    | some v => do
      let rest ← filterVeg vegParam rs
      pure (if v = vegParam then r :: rest else rest)

/-- Embedding of `[r for r in filtered if r['deliveries'] == delivery_param]`. -/
def filterDel (deliveryParam : Bool) : List Restaurant → Except String (List Restaurant)
  | [] => .ok []
  | r :: rs =>
    match r.deliveries with
    | none => .error "KeyError: deliveries"
    | some v => do
      let rest ← filterDel deliveryParam rs
      pure (if v = deliveryParam then r :: rest else rest)

/-- The `if 'style' in query_params` block of `filter_restaurants`:
case-insensitive style match. -/
def styleStep (qp : QueryParams) (l : List Restaurant) : List Restaurant :=
  match qp.style with
  | some sp => l.filter (fun r => strLower r.style = strLower sp)
  | none => l

/-- The `if 'vegetarian' in query_params` block of `filter_restaurants`:
`veg_param = query_params['vegetarian'].lower() == 'true'`, then filter. -/
def vegStep (qp : QueryParams) (l : List Restaurant) : Except String (List Restaurant) :=
  match qp.vegetarian with
  | some vp => filterVeg (strLower vp = "true") l
  | none => pure l

/-- The `if 'deliveries' in query_params` block of `filter_restaurants`. -/
def delStep (qp : QueryParams) (l : List Restaurant) : Except String (List Restaurant) :=
  match qp.deliveries with
  | some dp => filterDel (strLower dp = "true") l
  | none => pure l

/-- The `if 'priceRange' in query_params` block of `filter_restaurants`:
exact string match. -/
def priceStep (qp : QueryParams) (l : List Restaurant) : List Restaurant :=
  match qp.priceRange with
  | some pp => l.filter (fun r => r.priceRange = pp)
  | none => l

/-- Embedding of `filter_restaurants(query_params, restaurants)`. -/
def filterRestaurants (now : String) (qp : QueryParams) (restaurants : List Restaurant) :
    Except String (List Restaurant) := do
  let filtered := restaurants.filter (fun r => isRestaurantOpen r.openHour r.closeHour now)
  let filtered := styleStep qp filtered
  let filtered ← vegStep qp filtered
  let filtered ← delStep qp filtered
  let filtered := priceStep qp filtered
  match qp.openNow with
  | some onp =>
    if strLower onp = "false" then do
      let temp := styleStep qp restaurants
      let temp ← vegStep qp temp
      let temp ← delStep qp temp
      pure (priceStep qp temp)
    else pure filtered
  | none => pure filtered

/-- Spec-side definition: "applying only the style, vegetarian, deliveries
and priceRange filters to the unfiltered original list", with the open-now
check playing no role (spec section 4.4, steps 2-5). -/
def nonOpenFilters (qp : QueryParams) (restaurants : List Restaurant) :
    Except String (List Restaurant) := do
  let temp := styleStep qp restaurants
  let temp ← vegStep qp temp
  let temp ← delStep qp temp
  pure (priceStep qp temp)

/-- Response of the recommendation handler `main`, abstracted to the three
shapes it produces: 200 with records carrying a computed `isOpenNow` flag,
404 with a message body, or 500 with the exception's text. -/
inductive RecResp where
  | ok (restaurants : List (Restaurant × Bool))
  | noMatch (message : String)
  | err (details : String)
deriving Repr, DecidableEq

/-- HTTP status code of a recommendation response. -/
def RecResp.status : RecResp → Nat
  | .ok _ => 200
  | .noMatch _ => 404
  | .err _ => 500

/-- Embedding of the recommendation handler `main` after the records have
been fetched: run the filter pipeline, attach `isOpenNow` to each match,
404 on an empty result, 500 on an uncaught exception. -/
def recommendMain (now : String) (qp : QueryParams) (restaurants : List Restaurant) : RecResp :=
  match filterRestaurants now qp restaurants with
  | .error e => .err e
  | .ok [] => .noMatch "No restaurants match your criteria"
  | .ok (m :: ms) =>
    .ok ((m :: ms).map (fun r => (r, isRestaurantOpen r.openHour r.closeHour now)))

theorem except_bind_ok {α β : Type} {a : Except String α} {f : α → Except String β} {b : β}
    (h : a >>= f = .ok b) : ∃ x, a = .ok x ∧ f x = .ok b := by
  cases a with
  | error e =>
    simp only [bind, Except.bind] at h
    exact Except.noConfusion h
  | ok x => exact ⟨x, rfl, by simpa only [bind, Except.bind] using h⟩

/-- C1: the open-window check over zero-padded "HH:MM" strings compared
lexicographically returns, when `close < open`, true iff
`now >= open or now <= close`, and otherwise true iff
`open <= now <= close`; consequently for `o <= c` it is true at the two
boundaries, and for `o = c` it is true exactly at `now = o`. -/
theorem isOpen_window_characterization (o c now : String) :
    (isRestaurantOpen o c now = true ↔
      if c < o then o ≤ now ∨ now ≤ c else o ≤ now ∧ now ≤ c)
    ∧ (o ≤ c → isRestaurantOpen o c o = true ∧ isRestaurantOpen o c c = true)
    ∧ (isRestaurantOpen o o now = true ↔ now = o) := by
  refine ⟨?_, ?_, ?_⟩
  · unfold isRestaurantOpen
    by_cases h : c < o
    · rw [if_pos ((strLtB_iff c o).mpr h), if_pos h]
      simp only [Bool.or_eq_true, strLeB_iff]
    · rw [if_neg (fun hh => h ((strLtB_iff c o).mp hh)), if_neg h]
      simp only [Bool.and_eq_true, strLeB_iff]
  · intro h
    have hnot : ¬ (strLtB c o = true) := fun hh => absurd ((strLtB_iff c o).mp hh) (not_lt.mpr h)
    unfold isRestaurantOpen
    rw [if_neg hnot, if_neg hnot]
    simp only [Bool.and_eq_true, strLeB_iff]
    exact ⟨⟨le_refl o, h⟩, ⟨h, le_refl c⟩⟩
  · have hnot : ¬ (strLtB o o = true) := fun hh => absurd ((strLtB_iff o o).mp hh) (lt_irrefl o)
    unfold isRestaurantOpen
    rw [if_neg hnot]
    simp only [Bool.and_eq_true, strLeB_iff]
    constructor
    · rintro ⟨h1, h2⟩
      exact le_antisymm h2 h1
    · rintro rfl
      exact ⟨le_refl _, le_refl _⟩

theorem isOpen_window_characterization_witness :
    ("09:00" : String) ≤ "17:00" ∧
    isRestaurantOpen "09:00" "17:00" "09:00" = true ∧
    isRestaurantOpen "09:00" "17:00" "17:00" = true ∧
    isRestaurantOpen "22:00" "02:00" "23:30" = true ∧
    isRestaurantOpen "22:00" "02:00" "12:00" = false ∧
    isRestaurantOpen "09:00" "09:00" "09:00" = true ∧
    isRestaurantOpen "09:00" "09:00" "09:01" = false := by
  have hle : ("09:00" : String) ≤ "17:00" := (strLeB_iff _ _).mp (by decide)
  have h := isOpen_window_characterization "09:00" "17:00" "09:00"
  exact ⟨hle, (h.2.1 hle).1, (h.2.1 hle).2, by decide, by decide, by decide, by decide⟩

/-- C2: whenever the pipeline is given `openNow=false` (case-insensitive)
and produces a result at all, that result is exactly the style, vegetarian,
deliveries and priceRange filters applied to the unfiltered original list;
the open-now check plays no role. -/
theorem filter_openNowFalse_ignores_open (now : String) (qp : QueryParams) (s : String)
    (rs l : List Restaurant)
    (ho : qp.openNow = some s) (hs : strLower s = "false")
    (h : filterRestaurants now qp rs = .ok l) :
    nonOpenFilters qp rs = .ok l := by
  unfold filterRestaurants at h
  obtain ⟨f2, hv, h⟩ := except_bind_ok h
  obtain ⟨f3, hd, h⟩ := except_bind_ok h
  rw [ho] at h
  have h2 : (if strLower s = "false" then nonOpenFilters qp rs
      else pure (priceStep qp f3)) = Except.ok l := h
  rw [if_pos hs] at h2
  exact h2

def qpStyleOpenNowFalse : QueryParams := { style := some "Italian", openNow := some "false" }

def rOpenItalian : Restaurant :=
  { style := "Italian", priceRange := "$$", openHour := "09:00", closeHour := "17:00" }

def rClosedItalian : Restaurant :=
  { style := "Italian", priceRange := "$$", openHour := "18:00", closeHour := "20:00" }

theorem filter_openNowFalse_ignores_open_witness :
    isRestaurantOpen "09:00" "17:00" "12:00" = true ∧
    isRestaurantOpen "18:00" "20:00" "12:00" = false ∧
    filterRestaurants "12:00" qpStyleOpenNowFalse [rOpenItalian, rClosedItalian] =
      .ok [rOpenItalian, rClosedItalian] ∧
    nonOpenFilters qpStyleOpenNowFalse [rOpenItalian, rClosedItalian] =
      .ok [rOpenItalian, rClosedItalian] := by
  refine ⟨by decide, by decide, rfl, ?_⟩
  exact filter_openNowFalse_ignores_open "12:00" qpStyleOpenNowFalse "false" _ _
    rfl (by decide) rfl

/-- C9: the recommendation handler maps an empty filter result to a 404
response carrying a message, never to a 200 with an empty array, and a
non-empty result to a 200 whose records each carry the computed
`isOpenNow` flag. -/
theorem recommend_empty_404_nonempty_200 (now : String) (qp : QueryParams)
    (rs : List Restaurant) :
    (filterRestaurants now qp rs = .ok [] →
      recommendMain now qp rs = .noMatch "No restaurants match your criteria" ∧
      (recommendMain now qp rs).status = 404) ∧
    (∀ m ms, filterRestaurants now qp rs = .ok (m :: ms) →
      (recommendMain now qp rs).status = 200 ∧
      recommendMain now qp rs =
        .ok ((m :: ms).map (fun r => (r, isRestaurantOpen r.openHour r.closeHour now)))) ∧
    (∀ l, recommendMain now qp rs = .ok l → l ≠ []) := by
  refine ⟨?_, ?_, ?_⟩
  · intro h
    have hr : recommendMain now qp rs = .noMatch "No restaurants match your criteria" := by
      unfold recommendMain
      rw [h]
    exact ⟨hr, by rw [hr]; rfl⟩
  · intro m ms h
    have hr : recommendMain now qp rs =
        .ok ((m :: ms).map (fun r => (r, isRestaurantOpen r.openHour r.closeHour now))) := by
      unfold recommendMain
      rw [h]
    exact ⟨by rw [hr]; rfl, hr⟩
  · intro l hl
    unfold recommendMain at hl
    cases hfr : filterRestaurants now qp rs with
    | error e =>
      rw [hfr] at hl
      exact RecResp.noConfusion hl
    | ok ms =>
      rw [hfr] at hl
      cases ms with
      | nil => exact RecResp.noConfusion hl
      | cons m ms' =>
        have h2 := RecResp.ok.inj hl
        intro hnil
        rw [hnil] at h2
        simp at h2

theorem recommend_empty_404_witness :
    recommendMain "12:00" {} [] = .noMatch "No restaurants match your criteria" ∧
    (recommendMain "12:00" {} []).status = 404 :=
  (recommend_empty_404_nonempty_200 "12:00" {} []).1 rfl

theorem filterVeg_mem_none_error {r : Restaurant} {l : List Restaurant} (b : Bool)
    (hmem : r ∈ l) (hr : r.vegetarian = none) :
    filterVeg b l = .error "KeyError: vegetarian" := by
  induction l with
  | nil => cases hmem
  | cons a as ih =>
    unfold filterVeg
    cases ha : a.vegetarian with
    | none => rfl
    | some v =>
      have hmem2 : r ∈ as := by
        rcases List.mem_cons.mp hmem with h1 | h1
        · rw [h1, ha] at hr
          exact Option.noConfusion hr
        · exact h1
      rw [ih hmem2]
      rfl

theorem filterDel_mem_none_error {r : Restaurant} {l : List Restaurant} (b : Bool)
    (hmem : r ∈ l) (hr : r.deliveries = none) :
    filterDel b l = .error "KeyError: deliveries" := by
  induction l with
  | nil => cases hmem
  | cons a as ih =>
    unfold filterDel
    cases ha : a.deliveries with
    | none => rfl
    | some v =>
      have hmem2 : r ∈ as := by
        rcases List.mem_cons.mp hmem with h1 | h1
        · rw [h1, ha] at hr
          exact Option.noConfusion hr
        · exact h1
      rw [ih hmem2]
      rfl

theorem except_bind_ok_eq {α β : Type} (x : α) (f : α → Except String β) :
    (Except.ok x >>= f : Except String β) = f x := rfl

theorem except_bind_error_eq {α β : Type} (e : String) (f : α → Except String β) :
    ((Except.error e : Except String α) >>= f) = .error e := rfl

theorem mem_styleStep (qp : QueryParams) (l : List Restaurant) (r : Restaurant)
    (hmem : r ∈ l) (hsty : ∀ sp, qp.style = some sp → strLower r.style = strLower sp) :
    r ∈ styleStep qp l := by
  cases hq : qp.style with
  | none =>
    simp only [styleStep, hq]
    exact hmem
  | some sp =>
    simp only [styleStep, hq]
    exact List.mem_filter.mpr ⟨hmem, decide_eq_true (hsty sp hq)⟩

theorem styleStep_subset (qp : QueryParams) (l : List Restaurant) (r : Restaurant)
    (h : r ∈ styleStep qp l) : r ∈ l := by
  cases hq : qp.style with
  | none =>
    simp only [styleStep, hq] at h
    exact h
  | some sp =>
    simp only [styleStep, hq] at h
    exact List.mem_of_mem_filter h

theorem filterVeg_ok_subset (b : Bool) (l : List Restaurant)
    (h : ∀ r ∈ l, r.vegetarian.isSome = true) :
    ∃ l', filterVeg b l = .ok l' ∧ ∀ r ∈ l', r ∈ l := by
  induction l with
  | nil => exact ⟨[], rfl, fun r hr => absurd hr (List.not_mem_nil r)⟩
  | cons a as ih =>
    obtain ⟨v, hv⟩ := Option.isSome_iff_exists.mp (h a (List.mem_cons_self a as))
    obtain ⟨l', hl', hsub⟩ := ih (fun r hr => h r (List.mem_cons_of_mem a hr))
    refine ⟨if v = b then a :: l' else l', ?_, ?_⟩
    · unfold filterVeg
      rw [hv, hl']
      rfl
    · intro r hr
      by_cases hvb : v = b
      · rw [if_pos hvb] at hr
        rcases List.mem_cons.mp hr with h1 | h1
        · rw [h1]
          exact List.mem_cons_self a as
        · exact List.mem_cons_of_mem a (hsub r h1)
      · rw [if_neg hvb] at hr
        exact List.mem_cons_of_mem a (hsub r hr)

theorem filterDel_ok_subset (b : Bool) (l : List Restaurant)
    (h : ∀ r ∈ l, r.deliveries.isSome = true) :
    ∃ l', filterDel b l = .ok l' ∧ ∀ r ∈ l', r ∈ l := by
  induction l with
  | nil => exact ⟨[], rfl, fun r hr => absurd hr (List.not_mem_nil r)⟩
  | cons a as ih =>
    obtain ⟨v, hv⟩ := Option.isSome_iff_exists.mp (h a (List.mem_cons_self a as))
    obtain ⟨l', hl', hsub⟩ := ih (fun r hr => h r (List.mem_cons_of_mem a hr))
    refine ⟨if v = b then a :: l' else l', ?_, ?_⟩
    · unfold filterDel
      rw [hv, hl']
      rfl
    · intro r hr
      by_cases hvb : v = b
      · rw [if_pos hvb] at hr
        rcases List.mem_cons.mp hr with h1 | h1
        · rw [h1]
          exact List.mem_cons_self a as
        · exact List.mem_cons_of_mem a (hsub r h1)
      · rw [if_neg hvb] at hr
        exact List.mem_cons_of_mem a (hsub r hr)

theorem vegStep_ok_subset (qp : QueryParams) (l : List Restaurant)
    (h : ∀ r ∈ l, qp.vegetarian.isSome = true → r.vegetarian.isSome = true) :
    ∃ l', vegStep qp l = .ok l' ∧ ∀ r ∈ l', r ∈ l := by
  cases hq : qp.vegetarian with
  | none =>
    refine ⟨l, ?_, fun r hr => hr⟩
    simp only [vegStep, hq]
    rfl
  | some vp =>
    obtain ⟨l', h1, h2⟩ := filterVeg_ok_subset (decide (strLower vp = "true")) l
      (fun r hr => h r hr (by rw [hq]; rfl))
    refine ⟨l', ?_, h2⟩
    simp only [vegStep, hq]
    exact h1

theorem delStep_ok_subset (qp : QueryParams) (l : List Restaurant)
    (h : ∀ r ∈ l, qp.deliveries.isSome = true → r.deliveries.isSome = true) :
    ∃ l', delStep qp l = .ok l' ∧ ∀ r ∈ l', r ∈ l := by
  cases hq : qp.deliveries with
  | none =>
    refine ⟨l, ?_, fun r hr => hr⟩
    simp only [delStep, hq]
    rfl
  | some dp =>
    obtain ⟨l', h1, h2⟩ := filterDel_ok_subset (decide (strLower dp = "true")) l
      (fun r hr => h r hr (by rw [hq]; rfl))
    refine ⟨l', ?_, h2⟩
    simp only [delStep, hq]
    exact h1

/-- C10 amended: a record that survives the preceding filter steps -- the
open-now gate and the style filter, and for `deliveries` also the
vegetarian filter -- but lacks the looked-up optional field makes the
pipeline raise `KeyError` instead of returning a subset, and the whole
recommendation request then fails with a 500 response; conversely, when
every candidate record carries the vegetarian and deliveries fields that
are filtered on, no lookup error is raised and the pipeline returns a
result; a record filtered out before the lookup causes no error. -/
theorem filter_missing_optional_field_error (now : String) (qp : QueryParams)
    (rs : List Restaurant) :
    (∀ v r, qp.vegetarian = some v → r ∈ rs →
      isRestaurantOpen r.openHour r.closeHour now = true →
      (∀ sp, qp.style = some sp → strLower r.style = strLower sp) →
      r.vegetarian = none →
      filterRestaurants now qp rs = .error "KeyError: vegetarian" ∧
      recommendMain now qp rs = .err "KeyError: vegetarian" ∧
      (recommendMain now qp rs).status = 500) ∧
    (∀ d l₂ r, qp.deliveries = some d →
      vegStep qp (styleStep qp (rs.filter
        (fun x => isRestaurantOpen x.openHour x.closeHour now))) = .ok l₂ →
      r ∈ l₂ → r.deliveries = none →
      filterRestaurants now qp rs = .error "KeyError: deliveries" ∧
      recommendMain now qp rs = .err "KeyError: deliveries" ∧
      (recommendMain now qp rs).status = 500) ∧
    ((∀ r ∈ rs, (qp.vegetarian.isSome = true → r.vegetarian.isSome = true) ∧
        (qp.deliveries.isSome = true → r.deliveries.isSome = true)) →
      ∃ l, filterRestaurants now qp rs = .ok l) := by
  refine ⟨?_, ?_, ?_⟩
  · intro v r hv hmem hopen hsty hrnone
    have hmem2 : r ∈ rs.filter (fun x => isRestaurantOpen x.openHour x.closeHour now) :=
      List.mem_filter.mpr ⟨hmem, hopen⟩
    have hmem3 : r ∈ styleStep qp (rs.filter
        (fun x => isRestaurantOpen x.openHour x.closeHour now)) :=
      mem_styleStep qp _ r hmem2 hsty
    have hvs : vegStep qp (styleStep qp (rs.filter
        (fun x => isRestaurantOpen x.openHour x.closeHour now))) =
        .error "KeyError: vegetarian" := by
      simp only [vegStep, hv]
      exact filterVeg_mem_none_error _ hmem3 hrnone
    have hfr : filterRestaurants now qp rs = .error "KeyError: vegetarian" := by
      simp only [filterRestaurants, hvs, except_bind_error_eq]
    refine ⟨hfr, ?_, ?_⟩
    · unfold recommendMain
      rw [hfr]
    · unfold recommendMain
      rw [hfr]
      rfl
  · intro d l₂ r hd hvs hmem hrnone
    have hds : delStep qp l₂ = .error "KeyError: deliveries" := by
      simp only [delStep, hd]
      exact filterDel_mem_none_error _ hmem hrnone
    have hfr : filterRestaurants now qp rs = .error "KeyError: deliveries" := by
      simp only [filterRestaurants, hvs, except_bind_ok_eq, hds, except_bind_error_eq]
    refine ⟨hfr, ?_, ?_⟩
    · unfold recommendMain
      rw [hfr]
    · unfold recommendMain
      rw [hfr]
      rfl
  · intro hall
    have hsub1 : ∀ r ∈ styleStep qp (rs.filter
        (fun x => isRestaurantOpen x.openHour x.closeHour now)), r ∈ rs :=
      fun r hr => List.mem_of_mem_filter (styleStep_subset qp _ r hr)
    obtain ⟨l₂, hv2, hsub2⟩ := vegStep_ok_subset qp _
      (fun r hr => (hall r (hsub1 r hr)).1)
    obtain ⟨l₃, hd3, _⟩ := delStep_ok_subset qp l₂
      (fun r hr => (hall r (hsub1 r (hsub2 r hr))).2)
    cases hqo : qp.openNow with
    | none =>
      refine ⟨priceStep qp l₃, ?_⟩
      simp only [filterRestaurants, hv2, except_bind_ok_eq, hd3, hqo]
      rfl
    | some onp =>
      by_cases hf : strLower onp = "false"
      · have hsubT : ∀ r ∈ styleStep qp rs, r ∈ rs :=
          fun r hr => styleStep_subset qp rs r hr
        obtain ⟨t₂, hvT, hsubT2⟩ := vegStep_ok_subset qp (styleStep qp rs)
          (fun r hr => (hall r (hsubT r hr)).1)
        obtain ⟨t₃, hdT, _⟩ := delStep_ok_subset qp t₂
          (fun r hr => (hall r (hsubT r (hsubT2 r hr))).2)
        refine ⟨priceStep qp t₃, ?_⟩
        simp only [filterRestaurants, hv2, except_bind_ok_eq, hd3, hqo, hf, if_true]
        simp only [hvT, except_bind_ok_eq, hdT]
        rfl
      · refine ⟨priceStep qp l₃, ?_⟩
        simp only [filterRestaurants, hv2, except_bind_ok_eq, hd3, hqo]
        rw [if_neg hf]
        rfl

def qpVegOnly : QueryParams := { vegetarian := some "true" }

def qpVegStyle : QueryParams := { style := some "Italian", vegetarian := some "true" }

def rOpenItalianNoVeg : Restaurant :=
  { style := "ITALIAN", priceRange := "$", openHour := "09:00", closeHour := "17:00" }

def rVegDelPresent : Restaurant :=
  { style := "Italian", priceRange := "$", openHour := "09:00", closeHour := "17:00",
    vegetarian := some true, deliveries := some true }

theorem filter_missing_optional_field_witness :
    (filterRestaurants "12:00" qpVegStyle [rOpenItalianNoVeg] =
        .error "KeyError: vegetarian" ∧
      recommendMain "12:00" qpVegStyle [rOpenItalianNoVeg] = .err "KeyError: vegetarian" ∧
      (recommendMain "12:00" qpVegStyle [rOpenItalianNoVeg]).status = 500) ∧
    (∃ l, filterRestaurants "12:00" qpVegOnly [rVegDelPresent] = .ok l) := by
  constructor
  · exact (filter_missing_optional_field_error "12:00" qpVegStyle [rOpenItalianNoVeg]).1
      "true" rOpenItalianNoVeg rfl (List.mem_singleton.mpr rfl) (by decide)
      (by intro sp h; cases h; rfl) rfl
  · exact (filter_missing_optional_field_error "12:00" qpVegOnly [rVegDelPresent]).2.2
      (by
        intro r hr
        rw [List.mem_singleton] at hr
        subst hr
        exact ⟨fun _ => rfl, fun _ => rfl⟩)

def rClosedMissingVeg : Restaurant :=
  { style := "Italian", priceRange := "$", openHour := "18:00", closeHour := "20:00" }

theorem filter_missing_optional_field_counterexample :
    rClosedMissingVeg.vegetarian = none ∧
    qpVegOnly.vegetarian = some "true" ∧
    filterRestaurants "12:00" qpVegOnly [rClosedMissingVeg] = .ok [] ∧
    recommendMain "12:00" qpVegOnly [rClosedMissingVeg] =
      .noMatch "No restaurants match your criteria" ∧
    (recommendMain "12:00" qpVegOnly [rClosedMissingVeg]).status = 404 :=
  ⟨rfl, rfl, rfl, rfl, rfl⟩

/-- A JSON scalar value as stored in a restaurant document or supplied in
a request body. -/
inductive JVal where
  | vStr (s : String)
  | vBool (b : Bool)
  | vNum (n : Int)
  | vNull
deriving Repr, DecidableEq

/-- A Python dict with string keys, as an insertion-ordered association
list (no duplicate keys arise from Python dicts). -/
abbrev Dict := List (String × JVal)

/-- Python `d.get(k)` / `d[k]` lookup on a string-keyed association
list: the value at the first matching key. -/
def assocGet {α : Type} : List (String × α) → String → Option α
  | [], _ => none
  | (k₁, v) :: rest, k => if k₁ = k then some v else assocGet rest k

/-- Python `d[k] = v`: replace the value at an existing key in place,
else append the new key at the end. -/
def setField : Dict → String → JVal → Dict
  | [], k, v => [(k, v)]
  | (k', v') :: rest, k, v =>
    if k' = k then (k, v) :: rest else (k', v') :: setField rest k v

/-- The Cosmos container, as the list of stored documents. -/
abbrev Store := List Dict

/-- `container.read_item(item=rid, partition_key=rid)`: the document whose
`id` field equals `rid`. -/
def findDoc (store : Store) (rid : JVal) : Option Dict :=
  match store with
  | [] => none
  | e :: es => if assocGet e "id" = some rid then some e else findDoc es rid

/-- `container.replace_item(item=rid, body=d)`. -/
def replaceItem (store : Store) (rid : JVal) (d : Dict) : Store :=
  match store with
  | [] => []
  | e :: es => (if assocGet e "id" = some rid then d else e) :: replaceItem es rid d

/-- Whether some stored document's `id` field equals `v`. -/
def hasId (store : Store) (v : Option JVal) : Bool :=
  store.any (fun e => assocGet e "id" = v)

/-- `container.create_item(body=d)`: fails if the store already holds a
document with the same `id`. -/
def createItem (store : Store) (d : Dict) : Except String Store :=
  if hasId store (assocGet d "id") then .error "Conflict" else .ok (store ++ [d])

/-- The `required_fields` list of `add_restaurant`, in source order. -/
def requiredFields : List String := ["name", "style", "openHour", "closeHour", "priceRange"]

/-- The required-field presence loop of `add_restaurant`: the first field
not present in the payload, if any. -/
def firstMissing (data : Dict) : Option String :=
  requiredFields.find? (fun f => (assocGet data f).isNone)

/-- One iteration of the boolean-field loop of `add_restaurant`: a field
already a boolean (or absent) passes through, a string is coerced to
`lower() == 'true'`, anything else is a validation error. -/
def coerceBool (data : Dict) (field : String) : Except String Dict :=
  match assocGet data field with
  | none => .ok data
  | some (.vBool _) => .ok data
  | some (.vStr s) => .ok (setField data field (.vBool (strLower s = "true")))
  | some _ => .error ("Field " ++ field ++ " must be a boolean")

/-- Embedding of `add_restaurant(restaurant_data)`; the generated md5 id
and `datetime.now().isoformat()` are passed as `newId` and `now`. -/
def addRestaurant (store : Store) (data : Dict) (newId now : String) :
    Except String Dict × Store :=
  match firstMissing data with
  | some f => (.error ("Missing required field: " ++ f), store)
  | none =>
    match coerceBool data "vegetarian" with
    | .error e => (.error e, store)
    | .ok d1 =>
      match coerceBool d1 "deliveries" with
      | .error e => (.error e, store)
      | .ok d2 =>
        let d3 := if (assocGet d2 "id").isNone then setField d2 "id" (.vStr newId) else d2
        let d4 := setField d3 "createdAt" (.vStr now)
        let d5 := setField d4 "updatedAt" (.vStr now)
        match createItem store d5 with
        | .error e => (.error e, store)
        | .ok store2 => (.ok d5, store2)

/-- The merge loop of `update_restaurant`: every supplied field except
`id` overwrites the stored value. -/
def mergeFields (item : Dict) (upd : Dict) : Dict :=
  upd.foldl (fun acc kv => if kv.1 = "id" then acc else setField acc kv.1 kv.2) item

/-- Embedding of `update_restaurant(restaurant_id, update_data)`. -/
def updateRestaurant (store : Store) (rid : JVal) (upd : Dict) (now : String) :
    Except String Dict × Store :=
  match findDoc store rid with
  | none => (.error "Restaurant not found", store)
  | some item =>
    let merged := setField (mergeFields item upd) "updatedAt" (.vStr now)
    (.ok merged, replaceItem store rid merged)

/-- Embedding of `delete_restaurant(restaurant_id)`. -/
def deleteRestaurant (store : Store) (rid : JVal) : Except String String × Store :=
  match findDoc store rid with
  | none => (.error "Restaurant not found", store)
  | some _ =>
    (.ok "Restaurant deleted successfully",
      store.filter (fun e => ¬ (assocGet e "id" = some rid)))

/-- Embedding of `get_restaurant(restaurant_id)`. -/
def getRestaurant (store : Store) (rid : JVal) : Except String Dict :=
  match findDoc store rid with
  | none => .error "Restaurant not found"
  | some d => .ok d

/-- Python truthiness of an optional string (`None` and `""` are falsy). -/
def truthyStr : Option String → Option String
  | some s => if s = "" then none else some s
  | none => none

/-- Python truthiness of a JSON value. -/
def truthyJ : JVal → Bool
  | .vStr s => s ≠ ""
  | .vBool b => b
  | .vNum n => n ≠ 0
  | .vNull => false

/-- Python truthiness filter on an optional JSON value. -/
def truthyJOpt : Option JVal → Option JVal
  | some v => if truthyJ v then some v else none
  | none => none

/-- Python truthiness filter on an optional dict (`{}` is falsy). -/
def truthyDict : Option Dict → Option Dict
  | some d => if d = [] then none else some d
  | none => none

/-- The JSON body fields the admin handler reads; `none` on a field means
the key is absent, a `none` body means no/invalid JSON
(`req.get_json()` raised `ValueError`). -/
structure AdminBody where
  action : Option JVal := none
  admin_key : Option JVal := none
  id : Option JVal := none
  restaurant : Option Dict := none
deriving Repr, DecidableEq

/-- An admin HTTP request. -/
structure AdminReq where
  method : String
  headers : List (String × String) := []
  params : List (String × String) := []
  body : Option AdminBody := none
deriving Repr, DecidableEq

/-- The caller-supplied admin key: `x-admin-key` header, else `admin_key`
query parameter, else `admin_key` JSON-body field, each falsy value
falling through to the next source as in `validate_admin_credentials`. -/
def getReqAdminKey (req : AdminReq) : Option JVal :=
  match truthyStr (assocGet req.headers "x-admin-key") with
  | some k => some (.vStr k)
  | none =>
    match truthyStr (assocGet req.params "admin_key") with
    | some k => some (.vStr k)
    | none =>
      match req.body with
      | none => none
      | some b => b.admin_key

/-- Embedding of `validate_admin_credentials(req)`; the vault-resolved
`admin-api-key` is passed as `expected`. -/
def validateAdminCredentials (expected : String) (req : AdminReq) : Bool :=
  match getReqAdminKey req with
  | none => false
  | some v => truthyJ v && (v = JVal.vStr expected)

/-- An admin HTTP response: status plus the JSON body fields the handler
populates. -/
structure AdminResp where
  status : Nat
  error : Option String := none
  message : Option String := none
  restaurants : Option Store := none
  restaurant : Option Dict := none
deriving Repr, DecidableEq

/-- `req_body.get('action', '').lower()`: a missing action defaults to the
empty string, a non-string action has no `.lower()` and raises
`AttributeError` (surfacing as a 500 from the outer handler). -/
def actionFromBody (b : AdminBody) : Except String String :=
  match b.action with
  | none => .ok ""
  | some (.vStr s) => .ok (strLower s)
  | some _ => .error "AttributeError"

/-- The GET branch of the admin handler `main`: action from the query
parameters, default "list".  `none` as the response models the handler
falling off the end of the branch (unknown GET action returns Python
`None`). -/
def adminGetDispatch (req : AdminReq) (store : Store) : Option AdminResp × Store :=
  let action := strLower ((assocGet req.params "action").getD "list")
  if action = "list" then
        (some { status := 200, restaurants := some store }, store)
  else if action = "get" then
    match truthyStr (assocGet req.params "id") with
    | none =>
      (some { status := 400, error := some "Missing parameter",
              message := some "Restaurant ID is required" }, store)
    | some rid =>
      match getRestaurant store (.vStr rid) with
      | .ok r => (some { status := 200, restaurant := some r }, store)
      | .error msg =>
        (some { status := if msg = "Restaurant not found" then 404 else 500,
                error := some "Failed to get restaurant", message := some msg }, store)
  else (none, store)

/-- The POST/PUT/DELETE branch of the admin handler `main`: action from
the JSON body, default the empty string. -/
def adminMutDispatch (body : AdminBody) (store : Store) (newId now : String) :
    Option AdminResp × Store :=
  match actionFromBody body with
  | .error e =>
    (some { status := 500, error := some "Server error", message := some e }, store)
  | .ok action =>
    if action = "add" then
      match truthyDict body.restaurant with
      | none =>
        (some { status := 400, error := some "Missing data",
                message := some "Restaurant data is required" }, store)
      | some data =>
        match addRestaurant store data newId now with
        | (.ok r, store2) =>
          (some { status := 201, message := some "Restaurant added successfully",
                  restaurant := some r }, store2)
        | (.error msg, store2) =>
          (some { status := 400, error := some "Failed to add restaurant",
                  message := some msg }, store2)
    else if action = "update" then
      match truthyJOpt body.id, truthyDict body.restaurant with
      | some rid, some upd =>
        match updateRestaurant store rid upd now with
        | (.ok r, store2) =>
          (some { status := 200, message := some "Restaurant updated successfully",
                  restaurant := some r }, store2)
        | (.error msg, store2) =>
          (some { status := if msg = "Restaurant not found" then 404 else 400,
                  error := some "Failed to update restaurant",
                  message := some msg }, store2)
      | _, _ =>
        (some { status := 400, error := some "Missing data",
                message := some "Restaurant ID and update data are required" }, store)
    else if action = "delete" then
      match truthyJOpt body.id with
      | none =>
        (some { status := 400, error := some "Missing data",
                message := some "Restaurant ID is required" }, store)
      | some rid =>
        match deleteRestaurant store rid with
        | (.ok msg, store2) => (some { status := 200, message := some msg }, store2)
        | (.error msg, store2) =>
          (some { status := if msg = "Restaurant not found" then 404 else 400,
                  error := some "Failed to delete restaurant",
                  message := some msg }, store2)
    else if action = "list" then
      (some { status := 200, restaurants := some store }, store)
    else
      (some { status := 400, error := some "Invalid action",
              message := some ("Unknown admin action: " ++ action) }, store)

/-- Embedding of the admin handler `main`: authentication first, then
routing by method (GET reads the action from the query parameters,
POST/PUT/DELETE from the JSON body). -/
def adminMain (expected : String) (req : AdminReq) (store : Store) (newId now : String) :
    Option AdminResp × Store :=
  if validateAdminCredentials expected req then
    if req.method = "GET" then adminGetDispatch req store
    else adminMutDispatch (req.body.getD {}) store newId now
  else
    (some { status := 401, error := some "Unauthorized access",
            message := some "Valid admin credentials required" }, store)


theorem assocGet_setField_self (d : Dict) (k : String) (v : JVal) :
    assocGet (setField d k v) k = some v := by
  induction d with
  | nil => simp [setField, assocGet]
  | cons p rest ih =>
    obtain ⟨k', v'⟩ := p
    by_cases h : k' = k
    · simp [setField, h, assocGet]
    · simp [setField, h, assocGet, ih]

theorem assocGet_setField_ne (d : Dict) (k k' : String) (v : JVal) (h : k' ≠ k) :
    assocGet (setField d k v) k' = assocGet d k' := by
  induction d with
  | nil => simp [setField, assocGet, Ne.symm h]
  | cons p rest ih =>
    obtain ⟨k₁, v₁⟩ := p
    by_cases h1 : k₁ = k
    · subst h1
      simp [setField, assocGet, Ne.symm h]
    · by_cases h2 : k₁ = k'
      · simp [setField, h1, assocGet, h2, h]
      · simp [setField, h1, assocGet, h2, ih]

theorem assocGet_none_of_not_mem_keys (l : Dict) (k : String) (h : k ∉ l.map Prod.fst) :
    assocGet l k = none := by
  induction l with
  | nil => rfl
  | cons p rest ih =>
    obtain ⟨k₁, v₁⟩ := p
    simp only [List.map_cons, List.mem_cons] at h
    push_neg at h
    simp [assocGet, Ne.symm h.1, ih h.2]

theorem mergeFields_id (item upd : Dict) :
    assocGet (mergeFields item upd) "id" = assocGet item "id" := by
  induction upd generalizing item with
  | nil => rfl
  | cons p rest ih =>
    obtain ⟨k, v⟩ := p
    show assocGet (mergeFields (if k = "id" then item else setField item k v) rest) "id" =
      assocGet item "id"
    by_cases h : k = "id"
    · rw [if_pos h, ih]
    · rw [if_neg h, ih, assocGet_setField_ne _ _ _ _ (Ne.symm h)]

theorem mergeFields_notin (item upd : Dict) (k : String) :
    assocGet upd k = none → assocGet (mergeFields item upd) k = assocGet item k := by
  induction upd generalizing item with
  | nil => intro _; rfl
  | cons p rest ih =>
    intro h
    obtain ⟨k₁, v₁⟩ := p
    have hne : ¬ (k₁ = k) := by
      intro he
      simp [assocGet, he] at h
    have hrest : assocGet rest k = none := by
      simpa [assocGet, hne] using h
    show assocGet (mergeFields (if k₁ = "id" then item else setField item k₁ v₁) rest) k =
      assocGet item k
    by_cases h1 : k₁ = "id"
    · rw [if_pos h1, ih _ hrest]
    · rw [if_neg h1, ih _ hrest, assocGet_setField_ne _ _ _ _ (Ne.symm hne)]

theorem mergeFields_supplied (item upd : Dict) (k : String) (v : JVal) (hk : k ≠ "id") :
    (upd.map Prod.fst).Nodup → assocGet upd k = some v →
    assocGet (mergeFields item upd) k = some v := by
  induction upd generalizing item with
  | nil =>
    intro _ hfind
    exact Option.noConfusion hfind
  | cons p rest ih =>
    intro hnd hfind
    obtain ⟨k₁, v₁⟩ := p
    simp only [List.map_cons, List.nodup_cons] at hnd
    show assocGet (mergeFields (if k₁ = "id" then item else setField item k₁ v₁) rest) k =
      some v
    by_cases he : k₁ = k
    · subst he
      have hv : v₁ = v := by simpa [assocGet] using hfind
      subst hv
      rw [if_neg hk]
      rw [mergeFields_notin _ _ _ (assocGet_none_of_not_mem_keys _ _ hnd.1)]
      exact assocGet_setField_self _ _ _
    · have hrest : assocGet rest k = some v := by
        simpa [assocGet, he] using hfind
      by_cases h1 : k₁ = "id"
      · rw [if_pos h1]
        exact ih _ hnd.2 hrest
      · rw [if_neg h1]
        exact ih _ hnd.2 hrest

theorem findDoc_some_id (store : Store) (rid : JVal) (item : Dict) :
    findDoc store rid = some item → assocGet item "id" = some rid := by
  induction store with
  | nil =>
    intro h
    exact Option.noConfusion h
  | cons e es ih =>
    intro h
    unfold findDoc at h
    by_cases hp : assocGet e "id" = some rid
    · rw [if_pos hp] at h
      exact (Option.some.inj h) ▸ hp
    · rw [if_neg hp] at h
      exact ih h

theorem findDoc_replaceItem_self (store : Store) (rid : JVal) (d : Dict)
    (hd : assocGet d "id" = some rid) :
    ∀ item, findDoc store rid = some item →
      findDoc (replaceItem store rid d) rid = some d := by
  induction store with
  | nil =>
    intro item h
    exact Option.noConfusion h
  | cons e es ih =>
    intro item h
    unfold findDoc at h
    unfold replaceItem findDoc
    by_cases hp : assocGet e "id" = some rid
    · rw [if_pos hp, if_pos hd]
    · rw [if_neg hp] at h
      rw [if_neg hp, if_neg hp]
      exact ih item h

/-- C3 amended: "update" merges every supplied field except `id` into the
stored record and sets `updatedAt` to the current time; `createdAt` stays
unchanged provided the payload does not itself supply a `createdAt` field
(a supplied `createdAt` does overwrite it, since only `id` is excluded
from the merge).  Because each update stores `updatedAt := now`, across a
sequence of updates run at non-decreasing clock times with payloads not
supplying `createdAt`, `createdAt` never changes and `updatedAt` is
monotonically non-decreasing. -/
theorem update_merges_and_stamps (store : Store) (rid : JVal) (upd : Dict) (now : String)
    (item : Dict) (hfind : findDoc store rid = some item) :
    ∃ d, updateRestaurant store rid upd now = (.ok d, replaceItem store rid d) ∧
      assocGet d "id" = assocGet item "id" ∧
      assocGet d "updatedAt" = some (.vStr now) ∧
      (assocGet upd "createdAt" = none →
        assocGet d "createdAt" = assocGet item "createdAt") ∧
      (∀ k v, k ≠ "id" → k ≠ "updatedAt" → (upd.map Prod.fst).Nodup →
        assocGet upd k = some v → assocGet d k = some v) ∧
      findDoc (replaceItem store rid d) rid = some d := by
  refine ⟨setField (mergeFields item upd) "updatedAt" (.vStr now), ?_, ?_, ?_, ?_, ?_, ?_⟩
  · unfold updateRestaurant
    rw [hfind]
  · rw [assocGet_setField_ne _ _ _ _ (by decide : ("id" : String) ≠ "updatedAt")]
    exact mergeFields_id item upd
  · exact assocGet_setField_self _ _ _
  · intro hc
    rw [assocGet_setField_ne _ _ _ _ (by decide : ("createdAt" : String) ≠ "updatedAt")]
    exact mergeFields_notin _ _ _ hc
  · intro k v hk hku hnd hget
    rw [assocGet_setField_ne _ _ _ _ hku]
    exact mergeFields_supplied item upd k v hk hnd hget
  · have hd : assocGet (setField (mergeFields item upd) "updatedAt" (.vStr now)) "id" =
        some rid := by
      rw [assocGet_setField_ne _ _ _ _ (by decide : ("id" : String) ≠ "updatedAt"),
        mergeFields_id]
      exact findDoc_some_id store rid item hfind
    exact findDoc_replaceItem_self store rid _ hd item hfind

def docSeed : Dict :=
  [("id", .vStr "r1"), ("name", .vStr "Alpha"),
   ("createdAt", .vStr "2024-01-01T00:00:00"), ("updatedAt", .vStr "2024-01-01T00:00:00")]

theorem update_createdAt_overwritten_counterexample :
    ∃ d, (updateRestaurant [docSeed] (.vStr "r1")
        [("createdAt", .vStr "1999-12-31T00:00:00")] "2024-06-01T00:00:00").1 = .ok d ∧
      assocGet d "createdAt" = some (.vStr "1999-12-31T00:00:00") ∧
      assocGet docSeed "createdAt" = some (.vStr "2024-01-01T00:00:00") :=
  ⟨_, rfl, rfl, rfl⟩

theorem update_merges_and_stamps_witness :
    ∃ d, updateRestaurant [docSeed] (.vStr "r1") [("name", .vStr "Beta")]
        "2024-06-02T00:00:00" = (.ok d, replaceItem [docSeed] (.vStr "r1") d) ∧
      assocGet d "updatedAt" = some (.vStr "2024-06-02T00:00:00") := by
  obtain ⟨d, h1, _, h3, _, _, _⟩ :=
    update_merges_and_stamps [docSeed] (.vStr "r1") [("name", .vStr "Beta")]
      "2024-06-02T00:00:00" docSeed rfl
  exact ⟨d, h1, h3⟩

theorem validate_with_header_key (key : String) (hkey : key ≠ "") (req : AdminReq)
    (hh : req.headers = [("x-admin-key", key)]) :
    validateAdminCredentials key req = true := by
  unfold validateAdminCredentials getReqAdminKey
  rw [hh]
  simp [assocGet, truthyStr, hkey, truthyJ]

/-- C7: when the caller-supplied admin key (header, else query parameter,
else body field) is absent or not exactly the resolved admin key, the
handler answers 401 regardless of method and requested action, and the
store is untouched; authentication is decided before any routing. -/
theorem unauthorized_401 (expected : String) (req : AdminReq) (store : Store)
    (newId now : String)
    (h : getReqAdminKey req = none ∨ getReqAdminKey req ≠ some (.vStr expected)) :
    adminMain expected req store newId now =
      (some { status := 401, error := some "Unauthorized access",
              message := some "Valid admin credentials required" }, store) := by
  have hv : validateAdminCredentials expected req = false := by
    unfold validateAdminCredentials
    cases hk : getReqAdminKey req with
    | none => rfl
    | some v =>
      rcases h with h | h
      · rw [hk] at h
        exact Option.noConfusion h
      · rw [hk] at h
        have hne : v ≠ JVal.vStr expected := fun he => h (by rw [he])
        simp [hne]
  unfold adminMain
  rw [hv]
  rfl

def reqNoKey : AdminReq := { method := "GET" }

theorem unauthorized_401_witness :
    adminMain "secret" reqNoKey [] "id1" "t1" =
      (some { status := 401, error := some "Unauthorized access",
              message := some "Valid admin credentials required" }, []) :=
  unauthorized_401 "secret" reqNoKey [] "id1" "t1" (Or.inl rfl)

theorem adminMain_auth_get (expected : String) (req : AdminReq) (store : Store)
    (newId now : String) (hv : validateAdminCredentials expected req = true)
    (hm : req.method = "GET") :
    adminMain expected req store newId now = adminGetDispatch req store := by
  unfold adminMain
  rw [hv, hm]
  rfl

theorem adminMain_auth_mut (expected : String) (req : AdminReq) (store : Store)
    (newId now : String) (hv : validateAdminCredentials expected req = true)
    (hm : req.method = "POST") :
    adminMain expected req store newId now =
      adminMutDispatch (req.body.getD {}) store newId now := by
  unfold adminMain
  rw [hv, hm]
  rfl

def mkAddReq (key : String) (data : Dict) : AdminReq :=
  { method := "POST", headers := [("x-admin-key", key)],
    body := some { action := some (.vStr "add"), restaurant := some data } }

def mkUpdateReq (key rid : String) (upd : Dict) : AdminReq :=
  { method := "POST", headers := [("x-admin-key", key)],
    body := some { action := some (.vStr "update"), id := some (.vStr rid),
                   restaurant := some upd } }

def mkDeleteReq (key rid : String) : AdminReq :=
  { method := "POST", headers := [("x-admin-key", key)],
    body := some { action := some (.vStr "delete"), id := some (.vStr rid) } }

def mkGetReq (key rid : String) : AdminReq :=
  { method := "GET", headers := [("x-admin-key", key)],
    params := [("action", "get"), ("id", rid)] }

/-- C6: for an id absent from the store, "update" answers 404 with message
"Restaurant not found" and leaves the record store unchanged (no record is
created, replaced or deleted), and "delete" and "get" on the same absent
id answer 404 likewise. -/
theorem notfound_404_store_unchanged (store : Store) (key rid : String) (upd : Dict)
    (newId now : String) (hkey : key ≠ "") (hrid : rid ≠ "") (hupd : upd ≠ [])
    (hfind : findDoc store (.vStr rid) = none) :
    updateRestaurant store (.vStr rid) upd now = (.error "Restaurant not found", store) ∧
    deleteRestaurant store (.vStr rid) = (.error "Restaurant not found", store) ∧
    getRestaurant store (.vStr rid) = .error "Restaurant not found" ∧
    adminMain key (mkUpdateReq key rid upd) store newId now =
      (some { status := 404, error := some "Failed to update restaurant",
              message := some "Restaurant not found" }, store) ∧
    adminMain key (mkDeleteReq key rid) store newId now =
      (some { status := 404, error := some "Failed to delete restaurant",
              message := some "Restaurant not found" }, store) ∧
    adminMain key (mkGetReq key rid) store newId now =
      (some { status := 404, error := some "Failed to get restaurant",
              message := some "Restaurant not found" }, store) := by
  have h1 : updateRestaurant store (.vStr rid) upd now =
      (.error "Restaurant not found", store) := by
    unfold updateRestaurant
    rw [hfind]
  have h2 : deleteRestaurant store (.vStr rid) =
      (.error "Restaurant not found", store) := by
    unfold deleteRestaurant
    rw [hfind]
  have h3 : getRestaurant store (.vStr rid) = .error "Restaurant not found" := by
    unfold getRestaurant
    rw [hfind]
  refine ⟨h1, h2, h3, ?_, ?_, ?_⟩
  · rw [adminMain_auth_mut _ _ _ _ _ (validate_with_header_key key hkey _ rfl) rfl]
    simp [adminMutDispatch, actionFromBody, mkUpdateReq,
      show strLower "update" = "update" from rfl, truthyJOpt, truthyJ, truthyDict,
      hrid, hupd, h1]
  · rw [adminMain_auth_mut _ _ _ _ _ (validate_with_header_key key hkey _ rfl) rfl]
    simp [adminMutDispatch, actionFromBody, mkDeleteReq,
      show strLower "delete" = "delete" from rfl, truthyJOpt, truthyJ, hrid, h2]
  · rw [adminMain_auth_get _ _ _ _ _ (validate_with_header_key key hkey _ rfl) rfl]
    simp [adminGetDispatch, mkGetReq, assocGet,
      show strLower "get" = "get" from rfl, truthyStr, hrid, h3]

theorem notfound_404_store_unchanged_witness :
    updateRestaurant [] (.vStr "r1") [("name", .vStr "B")] "t1" =
      (.error "Restaurant not found", []) ∧
    adminMain "k" (mkGetReq "k" "r1") [] "id1" "t1" =
      (some { status := 404, error := some "Failed to get restaurant",
              message := some "Restaurant not found" }, []) := by
  have h := notfound_404_store_unchanged [] "k" "r1" [("name", .vStr "B")] "id1" "t1"
    (by decide) (by decide) (by decide) rfl
  exact ⟨h.1, h.2.2.2.2.2⟩

/-- C5 amended: with no action supplied, a GET admin request is routed to
"list" (the query-parameter lookup defaults to "list"), but a mutating
(POST/PUT/DELETE) request defaults to the empty-string action and is
rejected with 400 "Unknown admin action: " -- the "list" default applies
only to GET. -/
theorem default_action_routing (key : String) (store : Store) (newId now : String)
    (hkey : key ≠ "") :
    (∀ req : AdminReq, req.method = "GET" → req.headers = [("x-admin-key", key)] →
      assocGet req.params "action" = none →
      adminMain key req store newId now =
        (some { status := 200, restaurants := some store }, store)) ∧
    (∀ (req : AdminReq) (b : AdminBody), req.method = "POST" →
      req.headers = [("x-admin-key", key)] → req.body = some b → b.action = none →
      adminMain key req store newId now =
        (some { status := 400, error := some "Invalid action",
                message := some "Unknown admin action: " }, store)) := by
  constructor
  · intro req hm hh hac
    rw [adminMain_auth_get _ _ _ _ _ (validate_with_header_key key hkey _ hh) hm]
    simp [adminGetDispatch, hac, show strLower "list" = "list" from rfl]
  · intro req b hm hh hb hbact
    rw [adminMain_auth_mut _ _ _ _ _ (validate_with_header_key key hkey _ hh) hm, hb]
    simp [adminMutDispatch, actionFromBody, hbact]

def reqPostNoAction : AdminReq :=
  { method := "POST", headers := [("x-admin-key", "k")], body := some {} }

def reqGetNoAction : AdminReq := { method := "GET", headers := [("x-admin-key", "k")] }

theorem default_action_counterexample :
    adminMain "k" reqPostNoAction [] "id1" "t1" =
      (some { status := 400, error := some "Invalid action",
              message := some "Unknown admin action: " }, []) ∧
    adminMain "k" reqPostNoAction [] "id1" "t1" ≠
      (some { status := 200, restaurants := some ([] : Store) }, ([] : Store)) := by
  constructor
  · rfl
  · decide

theorem default_action_routing_witness :
    adminMain "k" reqGetNoAction [] "id1" "t1" =
      (some { status := 200, restaurants := some ([] : Store) }, ([] : Store)) ∧
    adminMain "k" reqPostNoAction [] "id1" "t1" =
      (some { status := 400, error := some "Invalid action",
              message := some "Unknown admin action: " }, ([] : Store)) := by
  have h := default_action_routing "k" [] "id1" "t1" (by decide)
  exact ⟨h.1 reqGetNoAction rfl rfl rfl, h.2 reqPostNoAction {} rfl rfl rfl rfl⟩

theorem isNone_false_of_ne_none {α : Type} {o : Option α} (h : o ≠ none) :
    o.isNone = false := by
  cases o with
  | none => exact absurd rfl h
  | some _ => rfl

/-- C8: the required-field presence check of "add" runs first, walking
name, style, openHour, closeHour, priceRange in order and reporting only
the first missing field, before boolean coercion, id/timestamp generation
and the store write; a payload with the first four fields but no
priceRange yields "Missing required field: priceRange" with a 400
response and an unchanged store, whatever its other fields hold. -/
theorem add_required_fields_first (store : Store) (data : Dict) (newId now key : String)
    (hname : assocGet data "name" ≠ none) (hstyle : assocGet data "style" ≠ none)
    (hopen : assocGet data "openHour" ≠ none) (hclose : assocGet data "closeHour" ≠ none)
    (hprice : assocGet data "priceRange" = none) :
    addRestaurant store data newId now =
      (.error "Missing required field: priceRange", store) ∧
    (key ≠ "" → data ≠ [] →
      adminMain key (mkAddReq key data) store newId now =
        (some { status := 400, error := some "Failed to add restaurant",
                message := some "Missing required field: priceRange" }, store)) := by
  have hfm : firstMissing data = some "priceRange" := by
    unfold firstMissing requiredFields
    simp [List.find?, isNone_false_of_ne_none hname, isNone_false_of_ne_none hstyle,
      isNone_false_of_ne_none hopen, isNone_false_of_ne_none hclose, hprice]
  have hadd : addRestaurant store data newId now =
      (.error "Missing required field: priceRange", store) := by
    simp only [addRestaurant, hfm]
    rfl
  refine ⟨hadd, ?_⟩
  intro hkey hdata
  rw [adminMain_auth_mut _ _ _ _ _ (validate_with_header_key key hkey _ rfl) rfl]
  simp [adminMutDispatch, actionFromBody, mkAddReq,
    show strLower "add" = "add" from rfl, truthyDict, hdata, hadd]

def dataNoPriceRange : Dict :=
  [("name", .vStr "A"), ("style", .vStr "S"), ("openHour", .vStr "09:00"),
   ("closeHour", .vStr "17:00"), ("vegetarian", .vNum 7)]

theorem add_required_fields_first_witness :
    addRestaurant [] dataNoPriceRange "id1" "t1" =
      (.error "Missing required field: priceRange", []) ∧
    adminMain "k" (mkAddReq "k" dataNoPriceRange) [] "id1" "t1" =
      (some { status := 400, error := some "Failed to add restaurant",
              message := some "Missing required field: priceRange" }, []) := by
  have h := add_required_fields_first [] dataNoPriceRange "id1" "t1" "k"
    (by decide) (by decide) (by decide) (by decide) rfl
  exact ⟨h.1, h.2 (by decide) (by decide)⟩

/-- Spec-side description of what "add" stores for an optional boolean
field: a boolean passes through, a string is coerced to
`lower() == 'true'`, an absent field stays absent. -/
def coerceOpt : Option JVal → Option JVal
  | some (.vStr s) => some (.vBool (strLower s = "true"))
  | v => v

/-- The shapes of an optional boolean field that "add" accepts: absent,
already a boolean, or a string (of any content). -/
def boolFieldAccepted (v : Option JVal) : Prop :=
  v = none ∨ (∃ b, v = some (.vBool b)) ∨ (∃ s, v = some (.vStr s))

theorem coerceBool_accepted (data : Dict) (field : String)
    (h : boolFieldAccepted (assocGet data field)) :
    ∃ d', coerceBool data field = .ok d' ∧
      assocGet d' field = coerceOpt (assocGet data field) ∧
      ∀ k, k ≠ field → assocGet d' k = assocGet data k := by
  rcases h with h | ⟨b, h⟩ | ⟨s, h⟩
  · exact ⟨data, by simp [coerceBool, h], by simp [coerceOpt, h], fun k _ => rfl⟩
  · exact ⟨data, by simp [coerceBool, h], by simp [coerceOpt, h], fun k _ => rfl⟩
  · refine ⟨setField data field (.vBool (strLower s = "true")), ?_, ?_, ?_⟩
    · simp [coerceBool, h]
    · rw [h]
      simp [coerceOpt, assocGet_setField_self]
    · intro k hk
      exact assocGet_setField_ne _ _ _ _ hk

theorem coerceBool_rejected (data : Dict) (field : String) (v : JVal)
    (h : assocGet data field = some v) (hb : ∀ b, v ≠ .vBool b) (hs : ∀ s, v ≠ .vStr s) :
    coerceBool data field = .error ("Field " ++ field ++ " must be a boolean") := by
  cases v with
  | vStr s => exact absurd rfl (hs s)
  | vBool b => exact absurd rfl (hb b)
  | vNum n => simp [coerceBool, h]
  | vNull => simp [coerceBool, h]

/-- C4 amended: in "add", a vegetarian or deliveries value that is already
a boolean passes through unchanged, and a value supplied as ANY string is
accepted and stored as the boolean `value.lower() == "true"` -- so "TRUE"
is stored as true, while "FALSE" and every other string (e.g. "banana")
are stored as false without a validation error; only a value that is
neither a boolean nor a string is rejected, for either field, with the
message "Field {field} must be a boolean" and a 400 response, the store
left unchanged. -/
theorem add_bool_coercion (store : Store) (data : Dict) (newId now key : String)
    (hreq : firstMissing data = none) :
    (∀ v, assocGet data "vegetarian" = some v → (∀ b, v ≠ .vBool b) → (∀ s, v ≠ .vStr s) →
      addRestaurant store data newId now =
        (.error "Field vegetarian must be a boolean", store) ∧
      (key ≠ "" → data ≠ [] →
        adminMain key (mkAddReq key data) store newId now =
          (some { status := 400, error := some "Failed to add restaurant",
                  message := some "Field vegetarian must be a boolean" }, store))) ∧
    (∀ v, boolFieldAccepted (assocGet data "vegetarian") →
      assocGet data "deliveries" = some v → (∀ b, v ≠ .vBool b) → (∀ s, v ≠ .vStr s) →
      addRestaurant store data newId now =
        (.error "Field deliveries must be a boolean", store) ∧
      (key ≠ "" → data ≠ [] →
        adminMain key (mkAddReq key data) store newId now =
          (some { status := 400, error := some "Failed to add restaurant",
                  message := some "Field deliveries must be a boolean" }, store))) ∧
    (boolFieldAccepted (assocGet data "vegetarian") →
      boolFieldAccepted (assocGet data "deliveries") →
      assocGet data "id" = none → hasId store (some (.vStr newId)) = false →
      ∃ d, addRestaurant store data newId now = (.ok d, store ++ [d]) ∧
        assocGet d "vegetarian" = coerceOpt (assocGet data "vegetarian") ∧
        assocGet d "deliveries" = coerceOpt (assocGet data "deliveries")) := by
  refine ⟨?_, ?_, ?_⟩
  · intro v hv hb hs
    have h1 := coerceBool_rejected data "vegetarian" v hv hb hs
    have herr : addRestaurant store data newId now =
        (.error "Field vegetarian must be a boolean", store) := by
      simp only [addRestaurant, hreq, h1]
      rfl
    refine ⟨herr, ?_⟩
    intro hkey hdata
    rw [adminMain_auth_mut _ _ _ _ _ (validate_with_header_key key hkey _ rfl) rfl]
    simp [adminMutDispatch, actionFromBody, mkAddReq,
      show strLower "add" = "add" from rfl, truthyDict, hdata, herr]
  · intro v hacc hdv hb hs
    obtain ⟨d1, h1, _, h1k⟩ := coerceBool_accepted data "vegetarian" hacc
    have hd1 : assocGet d1 "deliveries" = some v := by
      rw [h1k "deliveries" (by decide)]
      exact hdv
    have h2 := coerceBool_rejected d1 "deliveries" v hd1 hb hs
    have herr : addRestaurant store data newId now =
        (.error "Field deliveries must be a boolean", store) := by
      simp only [addRestaurant, hreq, h1, h2]
      rfl
    refine ⟨herr, ?_⟩
    intro hkey hdata
    rw [adminMain_auth_mut _ _ _ _ _ (validate_with_header_key key hkey _ rfl) rfl]
    simp [adminMutDispatch, actionFromBody, mkAddReq,
      show strLower "add" = "add" from rfl, truthyDict, hdata, herr]
  · intro haccV haccD hid hfresh
    obtain ⟨d1, h1, h1f, h1k⟩ := coerceBool_accepted data "vegetarian" haccV
    have haccD1 : boolFieldAccepted (assocGet d1 "deliveries") := by
      rw [h1k "deliveries" (by decide)]
      exact haccD
    obtain ⟨d2, h2, h2f, h2k⟩ := coerceBool_accepted d1 "deliveries" haccD1
    have hid2 : assocGet d2 "id" = none := by
      rw [h2k "id" (by decide), h1k "id" (by decide)]
      exact hid
    refine ⟨setField (setField (setField d2 "id" (.vStr newId)) "createdAt" (.vStr now))
      "updatedAt" (.vStr now), ?_, ?_, ?_⟩
    · have h4 : assocGet (setField (setField (setField d2 "id" (.vStr newId)) "createdAt"
          (.vStr now)) "updatedAt" (.vStr now)) "id" = some (.vStr newId) := by
        rw [assocGet_setField_ne _ _ _ _ (by decide : ("id" : String) ≠ "updatedAt"),
          assocGet_setField_ne _ _ _ _ (by decide : ("id" : String) ≠ "createdAt"),
          assocGet_setField_self]
      have h5 : createItem store (setField (setField (setField d2 "id" (.vStr newId))
          "createdAt" (.vStr now)) "updatedAt" (.vStr now)) =
          .ok (store ++ [setField (setField (setField d2 "id" (.vStr newId)) "createdAt"
          (.vStr now)) "updatedAt" (.vStr now)]) := by
        unfold createItem
        rw [h4, hfresh]
        rfl
      simp [addRestaurant, hreq, h1, h2, hid2, h5]
    · rw [assocGet_setField_ne _ _ _ _ (by decide : ("vegetarian" : String) ≠ "updatedAt"),
        assocGet_setField_ne _ _ _ _ (by decide : ("vegetarian" : String) ≠ "createdAt"),
        assocGet_setField_ne _ _ _ _ (by decide : ("vegetarian" : String) ≠ "id"),
        h2k "vegetarian" (by decide), h1f]
    · rw [assocGet_setField_ne _ _ _ _ (by decide : ("deliveries" : String) ≠ "updatedAt"),
        assocGet_setField_ne _ _ _ _ (by decide : ("deliveries" : String) ≠ "createdAt"),
        assocGet_setField_ne _ _ _ _ (by decide : ("deliveries" : String) ≠ "id"),
        h2f, h1k "deliveries" (by decide)]

def addDataBananaVeg : Dict :=
  [("name", .vStr "A"), ("style", .vStr "S"), ("openHour", .vStr "09:00"),
   ("closeHour", .vStr "17:00"), ("priceRange", .vStr "$$"),
   ("vegetarian", .vStr "banana")]

theorem add_bool_coercion_counterexample :
    (addRestaurant [] addDataBananaVeg "id1" "t1").1 ≠
      .error "Field vegetarian must be a boolean" ∧
    (∃ d, (addRestaurant [] addDataBananaVeg "id1" "t1").1 = .ok d ∧
      assocGet d "vegetarian" = some (.vBool false)) := by
  constructor
  · intro h
    exact Except.noConfusion h
  · exact ⟨_, rfl, rfl⟩

def addDataMixed : Dict :=
  [("name", .vStr "A"), ("style", .vStr "S"), ("openHour", .vStr "09:00"),
   ("closeHour", .vStr "17:00"), ("priceRange", .vStr "$$"),
   ("vegetarian", .vStr "TRUE"), ("deliveries", .vBool true)]

def addDataNullDel : Dict :=
  [("name", .vStr "A"), ("style", .vStr "S"), ("openHour", .vStr "09:00"),
   ("closeHour", .vStr "17:00"), ("priceRange", .vStr "$$"), ("deliveries", .vNull)]

theorem add_bool_coercion_witness :
    (∃ d, addRestaurant [] addDataMixed "id1" "t1" = (.ok d, [] ++ [d]) ∧
      assocGet d "vegetarian" = some (.vBool true) ∧
      assocGet d "deliveries" = some (.vBool true)) ∧
    addRestaurant [] addDataNullDel "id1" "t1" =
      (.error "Field deliveries must be a boolean", []) := by
  constructor
  · obtain ⟨d, h1, h2, h3⟩ := (add_bool_coercion [] addDataMixed "id1" "t1" "k" rfl).2.2
      (Or.inr (Or.inr ⟨"TRUE", rfl⟩)) (Or.inr (Or.inl ⟨true, rfl⟩)) rfl rfl
    refine ⟨d, h1, ?_, ?_⟩
    · rw [h2]
      rfl
    · rw [h3]
      rfl
  · exact ((add_bool_coercion [] addDataNullDel "id1" "t1" "k" rfl).2.1 JVal.vNull
      (Or.inl rfl) rfl (fun b h => JVal.noConfusion h) (fun s h => JVal.noConfusion h)).1
